import Mathlib

set_option maxHeartbeats 1000000

/-!
Shallow embedding of the typed-field descriptor system of `mixbox/fields.py`:
the `TypedField` descriptor (get/set/clean, multiplicity, hooks), the
`_TypedList` container, lazy class-reference resolution, the `IdField` and
`IdrefField` specializations, and the module-level helpers `unset`, `find`
and `_matches`.

Python values are modelled by the inductive `PyVal`.  Python classes used as
field or element types are opaque identifiers (`Nat`) whose behaviour — the
optional class-level `istypeof` membership predicate, the `_try_cast`
marker, the effect of calling the class on one argument, and the plain
`isinstance` test — is supplied by a `TypeEnv`.  `importlib.import_module`
plus `getattr` (external collaborators) are modelled by an explicit module
table.  The `preset_hook` and `postset_hook` callables are external code;
they are modelled as observable events recording each invocation.
-/

/-- Python type tags, used in error payloads where the source formats
`type(value)`. -/
inductive PyTy where
  | noneTy
  | strTy
  | intTy
  | boolTy
  | listTy
  | typedListTy
  | objTy (t : Nat)
deriving DecidableEq, Repr

/-- A reference to a class, as accepted by `_resolve_class`: Python `None`,
an actual class (identified by a `Nat`), a dotted-path string, or any other
object (an opaque tag, neither a class nor a string). -/
inductive ClassRef where
  | pynone
  | cls (t : Nat)
  | str (s : String)
  | other (tag : Nat)
deriving DecidableEq, Repr

/-- Python runtime values.  `typedList ty elems` is a `_TypedList` instance
whose `_type` slot holds the class reference `ty` and whose `_inner` list
holds `elems`; `obj t payload` is an instance of the user class `t`
remembering the constructor argument it was built from. -/
inductive PyVal where
  | none
  | str (s : String)
  | int (n : Int)
  | bool (b : Bool)
  | list (elems : List PyVal)
  | typedList (ty : ClassRef) (elems : List PyVal)
  | obj (t : Nat) (payload : PyVal)

/-- Python truthiness, `bool(v)`.  `_TypedList.__nonzero__` returns
`bool(self._inner)`; instances of user classes are truthy by default. -/
def PyVal.truthy : PyVal → Bool
  | PyVal.none => false
  | PyVal.str s => !s.isEmpty
  | PyVal.int n => n != 0
  | PyVal.bool b => b
  | PyVal.list xs => !xs.isEmpty
  | PyVal.typedList _ xs => !xs.isEmpty
  | PyVal.obj _ _ => true

/-- The `value is None` test. -/
def PyVal.isNone : PyVal → Bool
  | PyVal.none => true
  | _ => false

/-- The tag of `type(value)`. -/
def PyVal.pyTypeOf : PyVal → PyTy
  | PyVal.none => PyTy.noneTy
  | PyVal.str _ => PyTy.strTy
  | PyVal.int _ => PyTy.intTy
  | PyVal.bool _ => PyTy.boolTy
  | PyVal.list _ => PyTy.listTy
  | PyVal.typedList _ _ => PyTy.typedListTy
  | PyVal.obj t _ => PyTy.objTy t

/-- Behaviour of a Python class used as a field or element type: the optional
class-level `istypeof` membership predicate, the optional `_try_cast` class
attribute, the effect of calling the class on one argument (`Option.none`
models the call raising), and the plain `isinstance` test against this
class. -/
structure PyType where
  istypeof : Option (PyVal → Bool)
  tryCast : Bool
  call : PyVal → Option PyVal
  isinst : PyVal → Bool

/-- Assignment of behaviours to class identifiers. -/
def TypeEnv := Nat → PyType

/-- `importlib.import_module` and module `getattr` (external collaborators of
`_import_class`) modelled as a table mapping module names to their member
classes. -/
def ImportEnv := List (String × List (String × Nat))

/-- Errors raised by the embedded code, carrying the same data the source
interpolates into its messages. -/
inductive PyError where
  | typeMismatch (fieldName : String) (expected : Nat) (actual : PyTy)
  | listMismatch (value : PyVal) (valueTy : PyTy) (containerTy : PyTy) (expected : ClassRef)
  | importError (modname : String)
  | attributeError (modname : String) (classname : String)
  | valueErrorResolve (tag : Nat)
  | valueErrorUnpack (path : String)
  | isinstanceTypeError
  | typeCallError (t : Nat) (v : PyVal)
  | indexError

def lookupMod (ienv : ImportEnv) (m : String) : Option (List (String × Nat)) :=
  (ienv.find? (fun p => p.1 == m)).map (fun p => p.2)

def lookupMember (mems : List (String × Nat)) (c : String) : Option Nat :=
  (mems.find? (fun p => p.1 == c)).map (fun p => p.2)

/-- Split a character list at its last `.`, preferring a split found in the
suffix. -/
def rsplitDotAux : List Char → Option (List Char × List Char)
  | [] => Option.none
  | ch :: rest =>
    match rsplitDotAux rest with
    | Option.some (pre, post) => Option.some (ch :: pre, post)
    | Option.none => if ch = '.' then Option.some ([], rest) else Option.none

/-- Python `classpath.rsplit(".", 1)` followed by 2-tuple unpacking: the text
before and after the last dot, or nothing when the string has no dot (in
which case the unpacking in `_import_class` raises a `ValueError`). -/
def pyRsplitDot (s : String) : Option (String × String) :=
  match rsplitDotAux s.data with
  | Option.some (pre, post) => Option.some (String.mk pre, String.mk post)
  | Option.none => Option.none

/-- `_import_class(classpath)`: split on the last dot, import the module,
look up the class; `ImportError` when the module cannot be located,
`AttributeError` when the member is absent. -/
def _import_class (ienv : ImportEnv) (classpath : String) : Except PyError Nat :=
  match pyRsplitDot classpath with
  | Option.none => Except.error (PyError.valueErrorUnpack classpath)
  | Option.some (modname, classname) =>
    match lookupMod ienv modname with
    | Option.none => Except.error (PyError.importError modname)
    | Option.some mems =>
      match lookupMember mems classname with
      | Option.none => Except.error (PyError.attributeError modname classname)
      | Option.some t => Except.ok t

/-- `_resolve_class(classref)`: `None` passes through, a class passes
through, a string is imported, anything else raises `ValueError`. -/
def _resolve_class (ienv : ImportEnv) (classref : ClassRef) : Except PyError (Option Nat) :=
  match classref with
  | ClassRef.pynone => Except.ok Option.none
  | ClassRef.cls t => Except.ok (Option.some t)
  | ClassRef.str s => (_import_class ienv s).map Option.some
  | ClassRef.other tag => Except.error (PyError.valueErrorResolve tag)

/-- Modelled from the spec: `is_sequence` lives in `mixbox.datautils`, which
is not among the sources.  The spec describes it as "a predicate
distinguishing iterable collection values from scalar values (used to decide
whether a multiple-field input should be flattened or wrapped)".  Lists and
typed lists are the collection values of this model; strings and all other
values are scalars. -/
def is_sequence : PyVal → Bool
  | PyVal.list _ => true
  | PyVal.typedList _ _ => true
  | _ => false

/-- The elements of a sequence value (iteration order). -/
def PyVal.seqElems : PyVal → List PyVal
  | PyVal.list xs => xs
  | PyVal.typedList _ xs => xs
  | _ => []

/-- The membership test a class performs on a candidate element: the
class-level `istypeof` predicate when the class defines one, otherwise plain
`isinstance`. -/
def elemValid (tenv : TypeEnv) (t : Nat) (v : PyVal) : Bool :=
  match (tenv t).istypeof with
  | Option.some p => p v
  | Option.none => (tenv t).isinst v

/-- `_TypedList._is_valid(value)`: `hasattr(self._type, "istypeof")` then
either `self._type.istypeof(value)` or `isinstance(value, self._type)`.
When the stored `_type` is not a class (`None`, a string, or an opaque
object without an `istypeof` attribute) the `isinstance` call raises
`TypeError`. -/
def _TypedList._is_valid (tenv : TypeEnv) (ty : ClassRef) (value : PyVal) :
    Except PyError Bool :=
  match ty with
  | ClassRef.cls t => Except.ok (elemValid tenv t value)
  | _ => Except.error PyError.isinstanceTypeError

/-- Calling the stored `_type` on one argument.  Calling `None`, a string or
an opaque non-callable raises, which `Option.none` models. -/
def ClassRef.callRef (tenv : TypeEnv) : ClassRef → PyVal → Option PyVal
  | ClassRef.cls t, v => (tenv t).call v
  | _, _ => Option.none

/-- `_TypedList._fix_value(value)`: `self._type(value)` under a bare
`except:` that converts any failure into a `ValueError` naming the value,
its type, the collection type and the expected type. -/
def _TypedList._fix_value (tenv : TypeEnv) (ty : ClassRef) (value : PyVal) :
    Except PyError PyVal :=
  match ClassRef.callRef tenv ty value with
  | Option.some v => Except.ok v
  | Option.none =>
    Except.error (PyError.listMismatch value value.pyTypeOf PyTy.typedListTy ty)

/-- Python `list.insert` for a non-negative index: clamps an index past the
end to an append. -/
def pyListInsert {α : Type} (idx : Nat) (a : α) (l : List α) : List α :=
  l.take idx ++ a :: l.drop idx

/-- `_TypedList.insert(idx, value)`: skip falsy values; validate, coercing an
invalid value through `_fix_value`; insert into `_inner`. -/
def _TypedList.insert (tenv : TypeEnv) (ty : ClassRef) (inner : List PyVal)
    (idx : Nat) (value : PyVal) : Except PyError (List PyVal) :=
  if value.truthy = false then Except.ok inner
  else
    match _TypedList._is_valid tenv ty value with
    | Except.error e => Except.error e
    | Except.ok valid =>
      match (if valid then Except.ok value else _TypedList._fix_value tenv ty value) with
      | Except.error e => Except.error e
      | Except.ok v => Except.ok (pyListInsert idx v inner)

/-- `MutableSequence.append`: `insert(len(self), value)`. -/
def _TypedList.append (tenv : TypeEnv) (ty : ClassRef) (inner : List PyVal)
    (value : PyVal) : Except PyError (List PyVal) :=
  _TypedList.insert tenv ty inner inner.length value

/-- `MutableSequence.extend`: append each element in order (the `for` loop,
stopping at the first failure). -/
def _TypedList.extend (tenv : TypeEnv) (ty : ClassRef) :
    List PyVal → List PyVal → Except PyError (List PyVal)
  | inner, [] => Except.ok inner
  | inner, v :: vs =>
    match _TypedList.append tenv ty inner v with
    | Except.error e => Except.error e
    | Except.ok inner2 => _TypedList.extend tenv ty inner2 vs

/-- The `for item in args` loop of `_TypedList.__init__`: extend with each
argument that is a sequence and append each one that is not. -/
def _TypedList.initLoop (tenv : TypeEnv) (ty : ClassRef) :
    List PyVal → List PyVal → Except PyError (List PyVal)
  | inner, [] => Except.ok inner
  | inner, item :: items =>
    match (if is_sequence item then _TypedList.extend tenv ty inner item.seqElems
           else _TypedList.append tenv ty inner item) with
    | Except.error e => Except.error e
    | Except.ok inner2 => _TypedList.initLoop tenv ty inner2 items

/-- `_TypedList.__init__(type, *args)`: start from an empty `_inner`, then
run the argument loop. -/
def _TypedList.initArgs (tenv : TypeEnv) (ty : ClassRef) (args : List PyVal) :
    Except PyError (List PyVal) :=
  _TypedList.initLoop tenv ty [] args

/-- `_TypedList.__setitem__(key, value)`: validate or coerce (for every
value, falsy included), then store at the index; a position past the end
raises `IndexError`. -/
def _TypedList.setitem (tenv : TypeEnv) (ty : ClassRef) (inner : List PyVal)
    (idx : Nat) (value : PyVal) : Except PyError (List PyVal) :=
  match _TypedList._is_valid tenv ty value with
  | Except.error e => Except.error e
  | Except.ok valid =>
    match (if valid then Except.ok value else _TypedList._fix_value tenv ty value) with
    | Except.error e => Except.error e
    | Except.ok v =>
      if idx < inner.length then Except.ok (inner.set idx v)
      else Except.error PyError.indexError

/-- The concrete Python classes of field descriptors that the claims
distinguish: `TypedField` itself and its `IdField` / `IdrefField`
subclasses. -/
inductive FieldClass where
  | typed
  | id
  | idref
deriving DecidableEq, Repr

/-- `isinstance(field, target)` over the descriptor class hierarchy:
`IdField` and `IdrefField` are subclasses of `TypedField`. -/
def FieldClass.isinst (c : FieldClass) (target : FieldClass) : Bool :=
  c == target || target == FieldClass.typed

/-- `getattr(type_, "_try_cast", False)` on a raw type reference: only an
actual class carries the marker; `None` and strings never do (opaque
non-class references are modelled without it as well). -/
def ClassRef.tryCastAttr (tenv : TypeEnv) : ClassRef → Bool
  | ClassRef.cls t => (tenv t).tryCast
  | _ => false

/-- Truthiness of a raw type reference (`if type_:` in
`TypedField.__init__`): `None` and the empty string are falsy. -/
def ClassRef.pytruthy : ClassRef → Bool
  | ClassRef.pynone => false
  | ClassRef.cls _ => true
  | ClassRef.str s => !s.isEmpty
  | ClassRef.other _ => true

/-- The `TypedField` descriptor state.  `fid` is the descriptor's object
identity (the `_fields` dict key); `cls` is its concrete Python class;
`listclass_type` records the `functools.partial(_TypedList, type_)` capture
made at `__init__` time (`Option.none` when `listclass` is the plain `list`
constructor).  Hooks are identified by number. -/
structure TypedField where
  fid : Nat
  cls : FieldClass
  name : String
  _type : ClassRef
  _key_name : Option String
  comparable : Bool
  multiple : Bool
  preset_hook : Option Nat
  postset_hook : Option Nat
  is_type_castable : Bool
  _factory : ClassRef
  listclass_type : Option ClassRef
deriving DecidableEq, Repr

/-- `TypedField.__init__`: stores the raw arguments, reads
`getattr(type_, "_try_cast", False)` from the raw reference, and captures
`listclass` from the raw reference's truthiness. -/
def TypedField.init (tenv : TypeEnv) (fid : Nat) (cls : FieldClass) (name : String)
    (type_ : ClassRef) (key_name : Option String) (comparable : Bool) (multiple : Bool)
    (preset_hook : Option Nat) (postset_hook : Option Nat) (factory : ClassRef) :
    TypedField :=
  { fid := fid
    cls := cls
    name := name
    _type := type_
    _key_name := key_name
    comparable := comparable
    multiple := multiple
    preset_hook := preset_hook
    postset_hook := postset_hook
    is_type_castable := ClassRef.tryCastAttr tenv type_
    _factory := factory
    listclass_type := if type_.pytruthy then Option.some type_ else Option.none }

/-- Python `str.lower()`, computed structurally over the characters. -/
def pyLower (s : String) : String :=
  String.mk (s.data.map Char.toLower)

/-- The `key_name` property: the declared override when truthy, else the
lowercased field name (an empty-string override is falsy and ignored). -/
def TypedField.key_name (f : TypedField) : String :=
  match f._key_name with
  | Option.some s => if s.isEmpty then pyLower f.name else s
  | Option.none => pyLower f.name

/-- The resolution performed by each access of the `type_` property.  The
property also writes the result back (memoization); that write-back is
modelled by `TypedField.type_access`.  Resolution is idempotent, so reading
through this unmemoized resolver has the same value behaviour. -/
def TypedField.type_res (ienv : ImportEnv) (f : TypedField) : Except PyError (Option Nat) :=
  _resolve_class ienv f._type

/-- The `type_` property with its memoizing write-back:
`self._type = _resolve_class(self._type); return self._type`. -/
def TypedField.type_access (ienv : ImportEnv) (f : TypedField) :
    Except PyError (Option Nat × TypedField) :=
  match _resolve_class ienv f._type with
  | Except.error e => Except.error e
  | Except.ok r =>
    Except.ok (r, { f with _type := match r with
                                    | Option.some t => ClassRef.cls t
                                    | Option.none => ClassRef.pynone })

/-- The `factory` property with its memoizing write-back. -/
def TypedField.factory_access (ienv : ImportEnv) (f : TypedField) :
    Except PyError (Option Nat × TypedField) :=
  match _resolve_class ienv f._factory with
  | Except.error e => Except.error e
  | Except.ok r =>
    Except.ok (r, { f with _factory := match r with
                                       | Option.some t => ClassRef.cls t
                                       | Option.none => ClassRef.pynone })

/-- `TypedField.check_type(value)`: true when no (truthy) type is declared,
else the type's `istypeof` predicate when it has one, else `isinstance`. -/
def TypedField.check_type (tenv : TypeEnv) (ienv : ImportEnv) (f : TypedField)
    (value : PyVal) : Except PyError Bool :=
  match TypedField.type_res ienv f with
  | Except.error e => Except.error e
  | Except.ok Option.none => Except.ok true
  | Except.ok (Option.some t) => Except.ok (elemValid tenv t value)

/-- `TypedField._clean(value)`: `None` passes through; with no type the
value passes through; a value passing `check_type` passes through; else a
castable type is invoked on the value (its own failure propagating), else a
`TypeError` naming the field, the expected type and the actual type. -/
def TypedField._clean (tenv : TypeEnv) (ienv : ImportEnv) (f : TypedField)
    (value : PyVal) : Except PyError PyVal :=
  match value with
  | PyVal.none => Except.ok PyVal.none
  | _ =>
    match TypedField.type_res ienv f with
    | Except.error e => Except.error e
    | Except.ok Option.none => Except.ok value
    | Except.ok (Option.some t) =>
      if elemValid tenv t value then Except.ok value
      else if f.is_type_castable then
        match (tenv t).call value with
        | Option.some v => Except.ok v
        | Option.none => Except.error (PyError.typeCallError t value)
      else Except.error (PyError.typeMismatch f.name t value.pyTypeOf)

/-- Each invocation of a pre- or post-set hook, `hook(instance, value)`. -/
inductive HookEvent where
  | preset (h : Nat) (v : PyVal)
  | postset (h : Nat) (v : PyVal)

/-- The hook invocations one `__set__` performs around storing `v`: the
preset hook once if present, then the postset hook once if present. -/
def TypedField.hookEvents (f : TypedField) (v : PyVal) : List HookEvent :=
  (match f.preset_hook with
   | Option.some h => [HookEvent.preset h v]
   | Option.none => []) ++
  (match f.postset_hook with
   | Option.some h => [HookEvent.postset h v]
   | Option.none => [])

/-- An entity's per-instance `_fields` mapping: descriptor to stored value,
in insertion order (Python dict semantics). -/
structure Entity where
  fields : List (TypedField × PyVal)

/-- Store `v` under key `f` with dict semantics: an existing key (by
descriptor identity) keeps its position, a new key is appended. -/
def updateAssoc (f : TypedField) (v : PyVal) :
    List (TypedField × PyVal) → List (TypedField × PyVal)
  | [] => [(f, v)]
  | p :: rest =>
    if p.1.fid == f.fid then (f, v) :: rest
    else p :: updateAssoc f v rest

def Entity.store (e : Entity) (f : TypedField) (v : PyVal) : Entity :=
  { fields := updateAssoc f v e.fields }

def Entity.lookup (e : Entity) (fid : Nat) : Option PyVal :=
  (e.fields.find? (fun p => p.1.fid == fid)).map (fun p => p.2)

/-- The removal loop of `unset` for a valid (tuple) kind filter: delete
every `_fields` entry whose descriptor is an instance of one of the given
classes. -/
def unsetKinds (entity : Entity) (types : List FieldClass) : Entity :=
  { fields := entity.fields.filter (fun p => !(types.any (fun t => p.1.cls.isinst t))) }

/-- `unset(entity, *types)`: when no kinds are given the source rebinds
`types` to `[TypedField]` — a Python list, which is not a valid second
argument to `isinstance` — so the first evaluation of `isinstance(x, types)`
raises `TypeError`: on a non-empty storage the unfiltered call raises
before deleting anything, and only an empty storage, where the generator
never evaluates the predicate, returns quietly.  With explicit kinds
(`*types` a non-empty tuple) the matching entries are removed. -/
def unset (entity : Entity) (types : List FieldClass) : Except PyError Entity :=
  if types.isEmpty then
    match entity.fields with
    | [] => Except.ok entity
    | _ :: _ => Except.error PyError.isinstanceTypeError
  else Except.ok (unsetKinds entity types)

/-- Does the entity hold a truthy value under a descriptor of class `c`? -/
def Entity.hasTruthyKind (e : Entity) (c : FieldClass) : Bool :=
  e.fields.any (fun p => p.1.cls == c && p.2.truthy)

/-- The id/idref exclusion invariant: not simultaneously a truthy Id-kind
and a truthy Idref-kind stored value. -/
def Entity.exclusive (e : Entity) : Bool :=
  !(e.hasTruthyKind FieldClass.id && e.hasTruthyKind FieldClass.idref)

/-- `TypedField.__get__` (for an instance): the stored value when present;
otherwise, for a `multiple` field, `setdefault(self, [])` — a plain empty
`list`, stored and returned — and for a single-valued field `None`. -/
def TypedField.get (f : TypedField) (e : Entity) : PyVal × Entity :=
  match e.lookup f.fid with
  | Option.some v => (v, e)
  | Option.none =>
    if f.multiple then (PyVal.list [], Entity.store e f (PyVal.list []))
    else (PyVal.none, e)

/-- `self.listclass(arg)` in `TypedField.__set__`: the captured
`_TypedList` partial application when the field was declared with a truthy
type reference, the plain `list` constructor otherwise. -/
def TypedField.mkList (tenv : TypeEnv) (f : TypedField) (arg : Option PyVal) :
    Except PyError PyVal :=
  match f.listclass_type with
  | Option.some ty =>
    (_TypedList.initArgs tenv ty (match arg with
      | Option.some a => [a]
      | Option.none => [])).map (PyVal.typedList ty)
  | Option.none =>
    Except.ok (PyVal.list (match arg with
      | Option.some a => a.seqElems
      | Option.none => []))

/-- The `value = ...` block of `TypedField.__set__` for a `multiple` field:
`None` becomes a fresh empty `listclass()`; a non-sequence value is cleaned
and wrapped into a one-element `listclass`; a sequence value is cleaned
elementwise with `None` elements dropped before cleaning. -/
def TypedField.multipleStored (tenv : TypeEnv) (ienv : ImportEnv) (f : TypedField)
    (value : PyVal) : Except PyError PyVal :=
  match value with
  | PyVal.none => TypedField.mkList tenv f Option.none
  | _ =>
    if is_sequence value = false then
      match TypedField._clean tenv ienv f value with
      | Except.error e => Except.error e
      | Except.ok c => TypedField.mkList tenv f (Option.some (PyVal.list [c]))
    else
      match (value.seqElems.filter (fun x => x.isNone = false)).mapM
          (TypedField._clean tenv ienv f) with
      | Except.error e => Except.error e
      | Except.ok cs => TypedField.mkList tenv f (Option.some (PyVal.list cs))

/-- `TypedField.__set__`: compute the value to store (cleaning, and wrapping
through `listclass` for a `multiple` field), run the preset hook, store,
run the postset hook. -/
def TypedField.set (tenv : TypeEnv) (ienv : ImportEnv) (f : TypedField)
    (inst : Entity) (value : PyVal) : Except PyError (Entity × List HookEvent) :=
  match (if f.multiple then TypedField.multipleStored tenv ienv f value
         else TypedField._clean tenv ienv f value) with
  | Except.error e => Except.error e
  | Except.ok stored =>
    Except.ok (Entity.store inst f stored, TypedField.hookEvents f stored)

/-- `IdField.__set__`: the normal set, then, for a truthy assigned value,
`unset(instance, IdrefField)`. -/
def IdField.set (tenv : TypeEnv) (ienv : ImportEnv) (f : TypedField)
    (inst : Entity) (value : PyVal) : Except PyError (Entity × List HookEvent) :=
  match TypedField.set tenv ienv f inst value with
  | Except.error e => Except.error e
  | Except.ok r =>
    if value.truthy then
      match unset r.1 [FieldClass.idref] with
      | Except.error e => Except.error e
      | Except.ok e2 => Except.ok (e2, r.2)
    else Except.ok r

/-- `IdrefField.__set__`: the normal set, then, for a truthy assigned
value, `unset(instance, IdField)`. -/
def IdrefField.set (tenv : TypeEnv) (ienv : ImportEnv) (f : TypedField)
    (inst : Entity) (value : PyVal) : Except PyError (Entity × List HookEvent) :=
  match TypedField.set tenv ienv f inst value with
  | Except.error e => Except.error e
  | Except.ok r =>
    if value.truthy then
      match unset r.1 [FieldClass.id] with
      | Except.error e => Except.error e
      | Except.ok e2 => Except.ok (e2, r.2)
    else Except.ok r

/-- Attribute assignment on an entity dispatches to the `__set__` of the
descriptor's concrete class. -/
def Entity.setattr (tenv : TypeEnv) (ienv : ImportEnv) (f : TypedField)
    (e : Entity) (value : PyVal) : Except PyError (Entity × List HookEvent) :=
  match f.cls with
  | FieldClass.typed => TypedField.set tenv ienv f e value
  | FieldClass.id => IdField.set tenv ienv f e value
  | FieldClass.idref => IdrefField.set tenv ienv f e value

/-- A Python attribute value of a field descriptor, as returned by `getattr`
in `_matches`.  Only the descriptor's data attributes are exposed; the
resolving `type_`/`factory` properties are not modelled as query targets. -/
inductive PyAtt where
  | vnone
  | vstr (s : String)
  | vbool (b : Bool)
  | vcls (t : Nat)
  | vother (tag : Nat)
  | vhook (h : Nat)
deriving DecidableEq, Repr

def refAtt : ClassRef → PyAtt
  | ClassRef.pynone => PyAtt.vnone
  | ClassRef.cls t => PyAtt.vcls t
  | ClassRef.str s => PyAtt.vstr s
  | ClassRef.other tag => PyAtt.vother tag

def optStrAtt : Option String → PyAtt
  | Option.some s => PyAtt.vstr s
  | Option.none => PyAtt.vnone

def optHookAtt : Option Nat → PyAtt
  | Option.some h => PyAtt.vhook h
  | Option.none => PyAtt.vnone

/-- `getattr(field, attr)` over the descriptor's data attributes (with
`hasattr` false, i.e. `Option.none`, for any other name). -/
def TypedField.getattrF (f : TypedField) (attr : String) : Option PyAtt :=
  if attr == "name" then Option.some (PyAtt.vstr f.name)
  else if attr == "_type" then Option.some (refAtt f._type)
  else if attr == "_key_name" then Option.some (optStrAtt f._key_name)
  else if attr == "comparable" then Option.some (PyAtt.vbool f.comparable)
  else if attr == "multiple" then Option.some (PyAtt.vbool f.multiple)
  else if attr == "preset_hook" then Option.some (optHookAtt f.preset_hook)
  else if attr == "postset_hook" then Option.some (optHookAtt f.postset_hook)
  else if attr == "is_type_castable" then Option.some (PyAtt.vbool f.is_type_castable)
  else if attr == "_factory" then Option.some (refAtt f._factory)
  else if attr == "key_name" then Option.some (PyAtt.vstr f.key_name)
  else Option.none

/-- `_matches(field, params)`: every criterion's attribute exists and equals
the requested value. -/
def _matches (field : TypedField) (params : List (String × PyAtt)) : Bool :=
  params.all (fun p =>
    match field.getattrF p.1 with
    | Option.some w => w == p.2
    | Option.none => false)

/-- The `kwargmap` remapping in `find`: `factory` and `key_name` criteria
target the internal slots. -/
def kwargmapApply (k : String) : String :=
  if k == "factory" then "_factory"
  else if k == "key_name" then "_key_name"
  else k

/-- `find(entity, **kwargs)`: an entity without a `typed_fields` attribute
(modelled as `Option.none`) yields no results; otherwise the declared
descriptors matching all remapped criteria. -/
def find (typed_fields : Option (List TypedField)) (kwargs : List (String × PyAtt)) :
    List TypedField :=
  match typed_fields with
  | Option.none => []
  | Option.some fs =>
    let params := kwargs.map (fun p => (kwargmapApply p.1, p.2))
    fs.filter (fun x => _matches x params)

/-!
Concrete fixtures used by witnesses and counterexamples: a small class
environment and a family of field descriptors built through
`TypedField.init`.
-/

/-- Class `0`: a wrapper class with an `istypeof` predicate recognising its
own instances, the `_try_cast` marker set, and a constructor that always
succeeds, returning a (truthy) instance. -/
def wrapClass : PyType :=
  { istypeof := Option.some (fun v => match v with
      | PyVal.obj 0 _ => true
      | _ => false)
    tryCast := true
    call := fun v => Option.some (PyVal.obj 0 v)
    isinst := fun v => match v with
      | PyVal.obj 0 _ => true
      | _ => false }

/-- Class `1`: an `int`-like class with no `istypeof` predicate, no
`_try_cast` marker, and a constructor that always raises. -/
def intClass : PyType :=
  { istypeof := Option.none
    tryCast := false
    call := fun _ => Option.none
    isinst := fun v => match v with
      | PyVal.int _ => true
      | _ => false }

/-- Class `2`: `int`-membership with a constructor that succeeds, always
producing `7`. -/
def castIntClass : PyType :=
  { istypeof := Option.none
    tryCast := true
    call := fun _ => Option.some (PyVal.int 7)
    isinst := fun v => match v with
      | PyVal.int _ => true
      | _ => false }

/-- Any other class identifier: matches nothing, constructs nothing. -/
def blankClass : PyType :=
  { istypeof := Option.none
    tryCast := false
    call := fun _ => Option.none
    isinst := fun _ => false }

def tenv0 : TypeEnv := fun t =>
  if t = 0 then wrapClass
  else if t = 1 then intClass
  else if t = 2 then castIntClass
  else blankClass

/-- One importable module `pkg.mod` exposing `T` (class `0`) and `U`
(class `5`). -/
def ienv0 : ImportEnv := [("pkg.mod", [("T", 0), ("U", 5)])]

def fIdU : TypedField :=
  TypedField.init tenv0 10 FieldClass.id "id" ClassRef.pynone Option.none
    true false Option.none Option.none ClassRef.pynone

def fIdCast : TypedField :=
  TypedField.init tenv0 11 FieldClass.id "id" (ClassRef.cls 0) Option.none
    true false Option.none Option.none ClassRef.pynone

def fIdrefU : TypedField :=
  TypedField.init tenv0 12 FieldClass.idref "idref" ClassRef.pynone Option.none
    true false Option.none Option.none ClassRef.pynone

def fInt : TypedField :=
  TypedField.init tenv0 13 FieldClass.typed "count" (ClassRef.cls 1) Option.none
    true false Option.none Option.none ClassRef.pynone

def fMInt : TypedField :=
  TypedField.init tenv0 14 FieldClass.typed "vals" (ClassRef.cls 1) Option.none
    true true Option.none Option.none ClassRef.pynone

def fMU : TypedField :=
  TypedField.init tenv0 15 FieldClass.typed "items" ClassRef.pynone Option.none
    true true Option.none Option.none ClassRef.pynone

def fStrT : TypedField :=
  TypedField.init tenv0 16 FieldClass.typed "wrapped" (ClassRef.str "pkg.mod.T") Option.none
    true false Option.none Option.none ClassRef.pynone

def fU : TypedField :=
  TypedField.init tenv0 17 FieldClass.typed "Plain" ClassRef.pynone Option.none
    true false Option.none Option.none ClassRef.pynone

def fCast : TypedField :=
  TypedField.init tenv0 18 FieldClass.typed "wrap" (ClassRef.cls 0) Option.none
    true false Option.none Option.none ClassRef.pynone

def fHooked : TypedField :=
  TypedField.init tenv0 19 FieldClass.typed "vals" (ClassRef.cls 1) Option.none
    true true (Option.some 100) (Option.some 200) ClassRef.pynone

def fNC : TypedField :=
  TypedField.init tenv0 20 FieldClass.typed "hidden" ClassRef.pynone Option.none
    false false Option.none Option.none ClassRef.pynone

/-!
Helper lemmas about list insertion, the `_TypedList` loops and the entity
storage map.
-/

theorem pyListInsert_length {α : Type} (a : α) (l : List α) :
    pyListInsert l.length a l = l ++ [a] := by
  simp [pyListInsert]

theorem any_pyListInsert (p : PyVal → Bool) (idx : Nat) (a : PyVal) (l : List PyVal) :
    (pyListInsert idx a l).any p = (p a || l.any p) := by
  unfold pyListInsert
  conv_rhs => rw [← List.take_append_drop idx l]
  simp only [List.any_append, List.any_cons]
  cases p a <;> cases (l.take idx).any p <;> cases (l.drop idx).any p <;> rfl

theorem insert_skip (tenv : TypeEnv) (ty : ClassRef) (inner : List PyVal)
    (idx : Nat) (v : PyVal) (h : v.truthy = false) :
    _TypedList.insert tenv ty inner idx v = Except.ok inner := by
  simp [_TypedList.insert, h]

theorem insert_valid (tenv : TypeEnv) (t : Nat) (inner : List PyVal)
    (idx : Nat) (v : PyVal) (hv : v.truthy = true) (hval : elemValid tenv t v = true) :
    _TypedList.insert tenv (ClassRef.cls t) inner idx v
      = Except.ok (pyListInsert idx v inner) := by
  simp [_TypedList.insert, hv, _TypedList._is_valid, hval]

theorem append_filter_step (tenv : TypeEnv) (t : Nat) (inner : List PyVal) (c : PyVal)
    (h : c.truthy = true → elemValid tenv t c = true) :
    _TypedList.append tenv (ClassRef.cls t) inner c
      = Except.ok (inner ++ (if c.truthy then [c] else [])) := by
  cases hc : c.truthy with
  | false =>
    rw [_TypedList.append, insert_skip tenv _ inner _ c hc]
    simp
  | true =>
    rw [_TypedList.append, insert_valid tenv t inner _ c hc (h hc), pyListInsert_length]
    simp

theorem extend_filter (tenv : TypeEnv) (t : Nat) (cs : List PyVal)
    (h : ∀ c ∈ cs, c.truthy = true → elemValid tenv t c = true) :
    ∀ inner : List PyVal,
      _TypedList.extend tenv (ClassRef.cls t) inner cs
        = Except.ok (inner ++ cs.filter PyVal.truthy) := by
  induction cs with
  | nil => intro inner; simp [_TypedList.extend]
  | cons c cs ih =>
    intro inner
    have hc := h c (List.mem_cons_self c cs)
    have hcs : ∀ x ∈ cs, x.truthy = true → elemValid tenv t x = true :=
      fun x hx => h x (List.mem_cons_of_mem _ hx)
    rw [_TypedList.extend, append_filter_step tenv t inner c hc]
    dsimp only
    rw [ih hcs (inner ++ if c.truthy then [c] else [])]
    cases hct : c.truthy <;> simp [List.filter, hct]

theorem initArgs_one_list (tenv : TypeEnv) (t : Nat) (cs : List PyVal)
    (h : ∀ c ∈ cs, c.truthy = true → elemValid tenv t c = true) :
    _TypedList.initArgs tenv (ClassRef.cls t) [PyVal.list cs]
      = Except.ok (cs.filter PyVal.truthy) := by
  rw [_TypedList.initArgs, _TypedList.initLoop]
  simp only [is_sequence, PyVal.seqElems]
  rw [extend_filter tenv t cs h []]
  rfl

theorem updateAssoc_mem (f : TypedField) (v : PyVal) (l : List (TypedField × PyVal)) :
    ∀ p ∈ updateAssoc f v l, p ∈ l ∨ p = (f, v) := by
  induction l with
  | nil => intro p hp; simp [updateAssoc] at hp; right; exact hp
  | cons q rest ih =>
    intro p hp
    rw [updateAssoc] at hp
    by_cases hq : (q.1.fid == f.fid) = true
    · simp only [hq, if_pos] at hp
      rcases List.mem_cons.mp hp with h1 | h2
      · right; exact h1
      · left; exact List.mem_cons_of_mem _ h2
    · simp only [hq] at hp
      rcases List.mem_cons.mp hp with h1 | h2
      · left; exact h1 ▸ List.mem_cons_self q rest
      · rcases ih p h2 with h3 | h4
        · left; exact List.mem_cons_of_mem _ h3
        · right; exact h4

theorem hasTruthyKind_store (e : Entity) (f : TypedField) (v : PyVal) (c : FieldClass)
    (h : (Entity.store e f v).hasTruthyKind c = true) :
    e.hasTruthyKind c = true ∨ (f.cls == c && v.truthy) = true := by
  rw [Entity.hasTruthyKind, List.any_eq_true] at h
  obtain ⟨p, hp, hpc⟩ := h
  rcases updateAssoc_mem f v e.fields p hp with hmem | heq
  · left
    rw [Entity.hasTruthyKind, List.any_eq_true]
    exact ⟨p, hmem, hpc⟩
  · right
    rw [heq] at hpc
    exact hpc

theorem hasTruthyKind_unset_self (e : Entity) (c : FieldClass) :
    (unsetKinds e [c]).hasTruthyKind c = false := by
  rw [Entity.hasTruthyKind, List.any_eq_false]
  intro p hp
  have hmem : p ∈ e.fields.filter (fun q => !([c].any (fun t => q.1.cls.isinst t))) := hp
  rw [List.mem_filter] at hmem
  obtain ⟨_, hni⟩ := hmem
  simp only [List.any_cons, List.any_nil, Bool.or_false, FieldClass.isinst] at hni
  intro hcontra
  rw [Bool.and_eq_true] at hcontra
  rw [hcontra.1] at hni
  simp at hni

theorem clean_not_none (tenv : TypeEnv) (ienv : ImportEnv) (f : TypedField)
    (v : PyVal) (hv : v.isNone = false) :
    TypedField._clean tenv ienv f v =
      (match TypedField.type_res ienv f with
       | Except.error e => Except.error e
       | Except.ok Option.none => Except.ok v
       | Except.ok (Option.some t) =>
         if elemValid tenv t v then Except.ok v
         else if f.is_type_castable then
           match (tenv t).call v with
           | Option.some w => Except.ok w
           | Option.none => Except.error (PyError.typeCallError t v)
         else Except.error (PyError.typeMismatch f.name t v.pyTypeOf)) := by
  cases v
  case none => simp [PyVal.isNone] at hv
  all_goals rfl

/-- C8: class-reference resolution maps an absent reference to a null
result, an already-concrete type to itself unchanged, a string to the member
obtained by splitting on the last separator, loading the container and
looking up the member — failing with a resolution error when the container
cannot be located or the member is absent — and any other input to an
invalid-reference error; and once the `type_` or `factory` property has
resolved a reference, the result is cached on the field and subsequent
accesses return it unchanged without consulting the import machinery
(the outcome no longer depends on the import environment). -/
theorem C8_class_resolution (ienv ienv2 : ImportEnv) (tag t : Nat) (s m c : String)
    (f f2 : TypedField) (r : Option Nat) :
    (_resolve_class ienv ClassRef.pynone = Except.ok Option.none)
    ∧ (_resolve_class ienv (ClassRef.cls t) = Except.ok (Option.some t))
    ∧ (pyRsplitDot s = Option.some (m, c) →
        _resolve_class ienv (ClassRef.str s) =
          (match lookupMod ienv m with
           | Option.none => Except.error (PyError.importError m)
           | Option.some mems =>
             match lookupMember mems c with
             | Option.none => Except.error (PyError.attributeError m c)
             | Option.some t2 => Except.ok (Option.some t2)))
    ∧ (_resolve_class ienv (ClassRef.other tag) = Except.error (PyError.valueErrorResolve tag))
    ∧ (TypedField.type_access ienv f = Except.ok (r, f2) →
        TypedField.type_access ienv2 f2 = Except.ok (r, f2))
    ∧ (TypedField.factory_access ienv f = Except.ok (r, f2) →
        TypedField.factory_access ienv2 f2 = Except.ok (r, f2)) := by
  refine ⟨rfl, rfl, ?_, rfl, ?_, ?_⟩
  · intro hs
    show (_import_class ienv s).map Option.some = _
    rw [_import_class, hs]
    dsimp only
    cases hm : lookupMod ienv m with
    | none => rfl
    | some mems =>
      dsimp only
      cases hmm : lookupMember mems c with
      | none => rfl
      | some t2 => rfl
  · intro h
    rw [TypedField.type_access] at h
    cases hr : _resolve_class ienv f._type with
    | error e => rw [hr] at h; exact absurd h (by simp)
    | ok rr =>
      rw [hr] at h
      dsimp only at h
      rw [Except.ok.injEq, Prod.mk.injEq] at h
      obtain ⟨h1, h2⟩ := h
      subst h1
      subst h2
      cases rr <;> rfl
  · intro h
    rw [TypedField.factory_access] at h
    cases hr : _resolve_class ienv f._factory with
    | error e => rw [hr] at h; exact absurd h (by simp)
    | ok rr =>
      rw [hr] at h
      dsimp only at h
      rw [Except.ok.injEq, Prod.mk.injEq] at h
      obtain ⟨h1, h2⟩ := h
      subst h1
      subst h2
      cases rr <;> rfl

/-- Witness for C8: in the fixture module table, "pkg.mod.T" resolves to
class `0`; re-accessing the memoized field under an empty import table
still succeeds with the same result. -/
theorem C8_class_resolution_witness :
    _resolve_class ienv0 (ClassRef.str "pkg.mod.T") = Except.ok (Option.some 0)
    ∧ TypedField.type_access [] { fStrT with _type := ClassRef.cls 0 }
        = Except.ok (Option.some 0, { fStrT with _type := ClassRef.cls 0 }) := by
  constructor
  · have h := (C8_class_resolution ienv0 [] 0 0 "pkg.mod.T" "pkg.mod" "T"
      fStrT fStrT Option.none).2.2.1 rfl
    rw [h]
    rfl
  · exact (C8_class_resolution ienv0 [] 0 0 "pkg.mod.T" "pkg.mod" "T" fStrT
      { fStrT with _type := ClassRef.cls 0 } (Option.some 0)).2.2.2.2.1 rfl

/-- C9: a field constructed with its type reference given as a deferred
string reads the implicit-construction marker from the raw string at
construction time — always false — so `_clean` on such a field never
attempts implicit construction: any non-null value failing the resolved
type's membership test raises a type-mismatch error even when the resolved
class itself carries the `_try_cast` marker. -/
theorem C9_string_ref_not_castable (tenv : TypeEnv) (ienv : ImportEnv)
    (fid : Nat) (cls : FieldClass) (name s : String) (kn : Option String)
    (cmp mult : Bool) (ph qh : Option Nat) (fac : ClassRef) (t : Nat) (v : PyVal) :
    (TypedField.init tenv fid cls name (ClassRef.str s) kn cmp mult ph qh fac).is_type_castable
      = false
    ∧ (_import_class ienv s = Except.ok t →
       (tenv t).tryCast = true →
       v.isNone = false →
       elemValid tenv t v = false →
       TypedField._clean tenv ienv
           (TypedField.init tenv fid cls name (ClassRef.str s) kn cmp mult ph qh fac) v
         = Except.error (PyError.typeMismatch name t v.pyTypeOf)) := by
  constructor
  · rfl
  · intro himp htc hv hval
    rw [clean_not_none tenv ienv _ v hv]
    have hres : TypedField.type_res ienv
        (TypedField.init tenv fid cls name (ClassRef.str s) kn cmp mult ph qh fac)
        = Except.ok (Option.some t) := by
      show _resolve_class ienv (ClassRef.str s) = _
      rw [_resolve_class, himp]
      rfl
    rw [hres]
    dsimp only
    simp [TypedField.init, ClassRef.tryCastAttr, hval]

/-- Witness for C9: the fixture field declared with the string reference
"pkg.mod.T" is not castable, and cleaning an `int` through it fails with a
type mismatch although the resolved class `0` has `_try_cast` set. -/
theorem C9_string_ref_not_castable_witness :
    fStrT.is_type_castable = false
    ∧ (tenv0 0).tryCast = true
    ∧ TypedField._clean tenv0 ienv0 fStrT (PyVal.int 5)
        = Except.error (PyError.typeMismatch "wrapped" 0 PyTy.intTy) := by
  refine ⟨?_, rfl, ?_⟩
  · exact (C9_string_ref_not_castable tenv0 ienv0 16 FieldClass.typed "wrapped" "pkg.mod.T"
      Option.none true false Option.none Option.none ClassRef.pynone 0 (PyVal.int 5)).1
  · exact (C9_string_ref_not_castable tenv0 ienv0 16 FieldClass.typed "wrapped" "pkg.mod.T"
      Option.none true false Option.none Option.none ClassRef.pynone 0 (PyVal.int 5)).2
      rfl rfl rfl rfl

/-- C2: `TypedField._clean` returns a null value unchanged; with no declared
type any value is returned unchanged; a value satisfying the type-membership
test is returned unchanged; otherwise, for a type marked as supporting
implicit construction, the result is the type invoked on the value;
otherwise a type-mismatch error naming the field, the expected type and the
actual type of the value is raised. -/
theorem C2_clean_cases (tenv : TypeEnv) (ienv : ImportEnv) (f : TypedField) (t : Nat)
    (v w : PyVal) :
    (TypedField._clean tenv ienv f PyVal.none = Except.ok PyVal.none)
    ∧ (f._type = ClassRef.pynone → TypedField._clean tenv ienv f v = Except.ok v)
    ∧ (f._type = ClassRef.cls t → elemValid tenv t v = true →
        TypedField._clean tenv ienv f v = Except.ok v)
    ∧ (f._type = ClassRef.cls t → v.isNone = false → elemValid tenv t v = false →
        f.is_type_castable = true → (tenv t).call v = Option.some w →
        TypedField._clean tenv ienv f v = Except.ok w)
    ∧ (f._type = ClassRef.cls t → v.isNone = false → elemValid tenv t v = false →
        f.is_type_castable = false →
        TypedField._clean tenv ienv f v
          = Except.error (PyError.typeMismatch f.name t v.pyTypeOf)) := by
  refine ⟨rfl, ?_, ?_, ?_, ?_⟩
  · intro h
    cases v <;> simp [TypedField._clean, TypedField.type_res, h, _resolve_class]
  · intro h hval
    cases v <;>
      simp [TypedField._clean, TypedField.type_res, h, _resolve_class, hval]
  · intro h hv hval hcast hcall
    cases v
    case none => simp [PyVal.isNone] at hv
    all_goals
      simp [TypedField._clean, TypedField.type_res, h, _resolve_class, hval, hcast, hcall]
  · intro h hv hval hcast
    cases v
    case none => simp [PyVal.isNone] at hv
    all_goals
      simp [TypedField._clean, TypedField.type_res, h, _resolve_class, hval, hcast]

/-- Witness for C2: an untyped field passes a string through; the `int`
field passes an `int` through; the castable wrapper field constructs a
wrapper instance from an `int`; the non-castable `int` field rejects a
string with an error naming field "count", class `1` and the string type. -/
theorem C2_clean_cases_witness :
    TypedField._clean tenv0 [] fU (PyVal.str "abc") = Except.ok (PyVal.str "abc")
    ∧ TypedField._clean tenv0 [] fInt (PyVal.int 3) = Except.ok (PyVal.int 3)
    ∧ TypedField._clean tenv0 [] fCast (PyVal.int 3) = Except.ok (PyVal.obj 0 (PyVal.int 3))
    ∧ TypedField._clean tenv0 [] fInt (PyVal.str "x")
        = Except.error (PyError.typeMismatch "count" 1 PyTy.strTy) := by
  refine ⟨?_, ?_, ?_, ?_⟩
  · exact (C2_clean_cases tenv0 [] fU 0 (PyVal.str "abc") PyVal.none).2.1 rfl
  · exact (C2_clean_cases tenv0 [] fInt 1 (PyVal.int 3) PyVal.none).2.2.1 rfl rfl
  · exact (C2_clean_cases tenv0 [] fCast 0 (PyVal.int 3)
      (PyVal.obj 0 (PyVal.int 3))).2.2.2.1 rfl rfl rfl rfl rfl
  · exact (C2_clean_cases tenv0 [] fInt 1 (PyVal.str "x") PyVal.none).2.2.2.2 rfl rfl rfl rfl

/-- C6: the claim matches `unset`'s documented intent, but the code
defaults the kind filter to the Python list `[TypedField]` and `isinstance`
rejects a list second argument: on the failing input — `unset(entity)` with
no kinds on a storage holding one plain entry — the call raises `TypeError`
before removing anything (an empty storage never evaluates the predicate
and returns quietly), while `unset` with the explicit `IdField` kind
removes exactly the Id-kind entry and leaves the other entry unchanged. -/
theorem C6_unset_code_bug :
    unset ⟨[(fU, PyVal.str "a")]⟩ [] = Except.error PyError.isinstanceTypeError
    ∧ unset ⟨[]⟩ [] = Except.ok ⟨[]⟩
    ∧ unset ⟨[(fU, PyVal.str "a"), (fIdU, PyVal.str "i")]⟩ [FieldClass.id]
        = Except.ok ⟨[(fU, PyVal.str "a")]⟩ :=
  ⟨rfl, rfl, rfl⟩

theorem matchAtt_eq (f : TypedField) (k : String) (v : PyAtt) :
    (match f.getattrF k with
     | Option.some w => w == v
     | Option.none => false) = true ↔ f.getattrF k = Option.some v := by
  cases h : f.getattrF k <;> simp [h]

theorem matches_map_iff (f : TypedField) (kwargs : List (String × PyAtt)) :
    _matches f (kwargs.map (fun p => (kwargmapApply p.1, p.2))) = true ↔
      ∀ kv ∈ kwargs, f.getattrF (kwargmapApply kv.1) = Option.some kv.2 := by
  rw [_matches, List.all_eq_true]
  constructor
  · intro h kv hkv
    have h2 := h (kwargmapApply kv.1, kv.2) (List.mem_map.mpr ⟨kv, hkv, rfl⟩)
    exact (matchAtt_eq f (kwargmapApply kv.1) kv.2).mp h2
  · intro h kv hkv
    obtain ⟨kv0, hkv0, hmap⟩ := List.mem_map.mp hkv
    subst hmap
    exact (matchAtt_eq f (kwargmapApply kv0.1) kv0.2).mpr (h kv0 hkv0)

/-- C7: `find` on an entity not exposing its declared descriptors returns
nothing; otherwise it returns exactly the descriptors for which every
criterion equals the attribute of the remapped name (a descriptor lacking
the attribute never matches), with `factory` and `key_name` remapped to the
internal `_factory` / `_key_name` slots; in particular the criterion
`comparable = False` selects exactly the declared fields whose comparable
flag is false. -/
theorem C7_find (fs : List TypedField) (kwargs : List (String × PyAtt))
    (f : TypedField) (v : PyAtt) :
    (find Option.none kwargs = [])
    ∧ (f ∈ find (Option.some fs) kwargs ↔
        f ∈ fs ∧ ∀ kv ∈ kwargs, f.getattrF (kwargmapApply kv.1) = Option.some kv.2)
    ∧ (f ∈ find (Option.some fs) [("factory", v)] ↔
        f ∈ fs ∧ refAtt f._factory = v)
    ∧ (f ∈ find (Option.some fs) [("key_name", v)] ↔
        f ∈ fs ∧ optStrAtt f._key_name = v)
    ∧ (find (Option.some fs) [("comparable", PyAtt.vbool false)]
        = fs.filter (fun g => g.comparable == false)) := by
  have hmem : ∀ (kws : List (String × PyAtt)),
      f ∈ find (Option.some fs) kws ↔
        f ∈ fs ∧ ∀ kv ∈ kws, f.getattrF (kwargmapApply kv.1) = Option.some kv.2 := by
    intro kws
    show f ∈ fs.filter _ ↔ _
    rw [List.mem_filter]
    exact and_congr_right (fun _ => matches_map_iff f kws)
  refine ⟨rfl, hmem kwargs, ?_, ?_, ?_⟩
  · rw [hmem [("factory", v)]]
    apply and_congr_right
    intro _
    constructor
    · intro h
      have h2 := h ("factory", v) (List.mem_cons_self _ _)
      rw [show f.getattrF (kwargmapApply "factory") = Option.some (refAtt f._factory) from rfl]
        at h2
      exact (Option.some.injEq _ _).mp h2
    · intro h kv hkv
      rw [List.mem_singleton] at hkv
      subst hkv
      show Option.some (refAtt f._factory) = Option.some v
      rw [h]
  · rw [hmem [("key_name", v)]]
    apply and_congr_right
    intro _
    constructor
    · intro h
      have h2 := h ("key_name", v) (List.mem_cons_self _ _)
      rw [show f.getattrF (kwargmapApply "key_name") = Option.some (optStrAtt f._key_name)
        from rfl] at h2
      exact (Option.some.injEq _ _).mp h2
    · intro h kv hkv
      rw [List.mem_singleton] at hkv
      subst hkv
      show Option.some (optStrAtt f._key_name) = Option.some v
      rw [h]
  · show fs.filter _ = _
    apply List.filter_congr
    intro q hq
    show _matches q [("comparable", PyAtt.vbool false)] = (q.comparable == false)
    rw [show _matches q [("comparable", PyAtt.vbool false)]
      = ((PyAtt.vbool q.comparable == PyAtt.vbool false) && true) from rfl]
    cases hq2 : q.comparable <;> decide

/-- Witness for C7: among two fixture fields, only the one declared with
`comparable=False` is returned by the comparable-criterion search, and a
`factory` criterion matches through the internal slot. -/
theorem C7_find_witness :
    (fNC ∈ find (Option.some [fU, fNC]) [("comparable", PyAtt.vbool false)]
      ∧ fU ∉ find (Option.some [fU, fNC]) [("comparable", PyAtt.vbool false)])
    ∧ fNC ∈ find (Option.some [fU, fNC]) [("factory", PyAtt.vnone)] := by
  refine ⟨⟨?_, ?_⟩, ?_⟩
  · exact ((C7_find [fU, fNC] [("comparable", PyAtt.vbool false)] fNC PyAtt.vnone).2.1).mpr
      ⟨List.mem_cons_of_mem _ (List.mem_cons_self _ _), by
        intro kv hkv
        rw [List.mem_singleton] at hkv
        subst hkv
        rfl⟩
  · intro hcontra
    have h := ((C7_find [fU, fNC] [("comparable", PyAtt.vbool false)] fU
      PyAtt.vnone).2.1).mp hcontra
    have h2 := h.2 ("comparable", PyAtt.vbool false) (List.mem_cons_self _ _)
    exact absurd h2 (by simp [TypedField.getattrF, kwargmapApply, fU, TypedField.init])
  · exact ((C7_find [fU, fNC] [("factory", PyAtt.vnone)] fNC PyAtt.vnone).2.2.1).mpr
      ⟨by simp, rfl⟩

/-- Does the list contain a Python `None` element? -/
def containsNone (l : List PyVal) : Bool := l.any PyVal.isNone

theorem containsNone_pyListInsert (idx : Nat) (a : PyVal) (l : List PyVal) :
    containsNone (pyListInsert idx a l) = (a.isNone || containsNone l) := by
  rw [containsNone, any_pyListInsert, containsNone]

theorem truthy_not_none (v : PyVal) (h : v.truthy = true) : v.isNone = false := by
  cases v
  case none => simp [PyVal.truthy] at h
  all_goals rfl

theorem insert_coerce (tenv : TypeEnv) (t : Nat) (inner : List PyVal) (idx : Nat)
    (v w : PyVal) (hv : v.truthy = true) (hval : elemValid tenv t v = false)
    (hcall : (tenv t).call v = Option.some w) :
    _TypedList.insert tenv (ClassRef.cls t) inner idx v
      = Except.ok (pyListInsert idx w inner) := by
  simp [_TypedList.insert, hv, _TypedList._is_valid, hval, _TypedList._fix_value,
    ClassRef.callRef, hcall]

theorem insert_coerce_fail (tenv : TypeEnv) (t : Nat) (inner : List PyVal) (idx : Nat)
    (v : PyVal) (hv : v.truthy = true) (hval : elemValid tenv t v = false)
    (hcall : (tenv t).call v = Option.none) :
    _TypedList.insert tenv (ClassRef.cls t) inner idx v
      = Except.error (PyError.listMismatch v v.pyTypeOf PyTy.typedListTy (ClassRef.cls t)) := by
  simp [_TypedList.insert, hv, _TypedList._is_valid, hval, _TypedList._fix_value,
    ClassRef.callRef, hcall]

/-- C5: inserting a falsy/empty value into a typed sequence is a no-op
(length and contents unchanged); a truthy value passing the element-type
test is inserted as is; a truthy value failing the test is coerced by
invoking the element type as a one-argument constructor on it; when that
invocation fails, a type-mismatch error naming the offending value, its
type, the container type and the expected type is raised; and insertion
never introduces a `None` element (given that the element constructor, when
it succeeds, returns an instance rather than `None`). -/
theorem C5_insert (tenv : TypeEnv) (t : Nat) (inner inner2 : List PyVal)
    (idx : Nat) (v w : PyVal) :
    (v.truthy = false →
        _TypedList.insert tenv (ClassRef.cls t) inner idx v = Except.ok inner)
    ∧ (v.truthy = true → elemValid tenv t v = true →
        _TypedList.insert tenv (ClassRef.cls t) inner idx v
          = Except.ok (pyListInsert idx v inner))
    ∧ (v.truthy = true → elemValid tenv t v = false → (tenv t).call v = Option.some w →
        _TypedList.insert tenv (ClassRef.cls t) inner idx v
          = Except.ok (pyListInsert idx w inner))
    ∧ (v.truthy = true → elemValid tenv t v = false → (tenv t).call v = Option.none →
        _TypedList.insert tenv (ClassRef.cls t) inner idx v
          = Except.error (PyError.listMismatch v v.pyTypeOf PyTy.typedListTy (ClassRef.cls t)))
    ∧ (containsNone inner = false →
       (∀ u, (tenv t).call v = Option.some u → u.isNone = false) →
       _TypedList.insert tenv (ClassRef.cls t) inner idx v = Except.ok inner2 →
       containsNone inner2 = false) := by
  refine ⟨insert_skip tenv _ inner idx v, insert_valid tenv t inner idx v,
    insert_coerce tenv t inner idx v w, insert_coerce_fail tenv t inner idx v, ?_⟩
  intro hn hcall hins
  cases hv : v.truthy with
  | false =>
    rw [insert_skip tenv _ inner idx v hv] at hins
    injection hins with h
    rw [← h]
    exact hn
  | true =>
    cases hval : elemValid tenv t v with
    | true =>
      rw [insert_valid tenv t inner idx v hv hval] at hins
      injection hins with h
      rw [← h, containsNone_pyListInsert, truthy_not_none v hv, hn]
      rfl
    | false =>
      cases hc : (tenv t).call v with
      | none =>
        rw [insert_coerce_fail tenv t inner idx v hv hval hc] at hins
        exact absurd hins (by simp)
      | some u =>
        rw [insert_coerce tenv t inner idx v u hv hval hc] at hins
        injection hins with h
        rw [← h, containsNone_pyListInsert, hcall u hc, hn]
        rfl

/-- Witness for C5: inserting falsy `0` into an `int` sequence is a no-op;
inserting `5` prepends it; inserting a string into the coercing class-`2`
sequence stores the constructed `7`; inserting a string into the
non-coercible `int` sequence fails with the full error payload; and the
no-`None` preservation applies at the coercion step. -/
theorem C5_insert_witness :
    _TypedList.insert tenv0 (ClassRef.cls 1) [PyVal.int 1] 0 (PyVal.int 0)
      = Except.ok [PyVal.int 1]
    ∧ _TypedList.insert tenv0 (ClassRef.cls 1) [PyVal.int 1] 0 (PyVal.int 5)
      = Except.ok [PyVal.int 5, PyVal.int 1]
    ∧ _TypedList.insert tenv0 (ClassRef.cls 2) [] 0 (PyVal.str "x")
      = Except.ok [PyVal.int 7]
    ∧ _TypedList.insert tenv0 (ClassRef.cls 1) [] 0 (PyVal.str "x")
      = Except.error (PyError.listMismatch (PyVal.str "x") PyTy.strTy PyTy.typedListTy
          (ClassRef.cls 1))
    ∧ containsNone [PyVal.int 7] = false := by
  refine ⟨?_, ?_, ?_, ?_, ?_⟩
  · exact (C5_insert tenv0 1 [PyVal.int 1] [] 0 (PyVal.int 0) PyVal.none).1 rfl
  · exact (C5_insert tenv0 1 [PyVal.int 1] [] 0 (PyVal.int 5) PyVal.none).2.1 rfl rfl
  · exact (C5_insert tenv0 2 [] [] 0 (PyVal.str "x") (PyVal.int 7)).2.2.1 rfl rfl rfl
  · exact (C5_insert tenv0 1 [] [] 0 (PyVal.str "x") PyVal.none).2.2.2.1 rfl rfl rfl
  · exact (C5_insert tenv0 2 [] [PyVal.int 7] 0 (PyVal.str "x") (PyVal.int 7)).2.2.2.2 rfl
      (fun u hu => by injection hu with h; rw [← h]; rfl) rfl

/-- C10: index assignment on a typed sequence applies the validate-or-coerce
rule to every value, falsy/empty ones included — unlike `insert`, it does
not silently skip them: assigning a falsy value at an existing position
stores that value when it passes the membership test, or its coercion
through the element-type constructor when it does not, while `insert` of
the same falsy value leaves the sequence unchanged. -/
theorem C10_setitem (tenv : TypeEnv) (t : Nat) (inner : List PyVal)
    (idx : Nat) (v w : PyVal) :
    (idx < inner.length → elemValid tenv t v = true →
        _TypedList.setitem tenv (ClassRef.cls t) inner idx v
          = Except.ok (inner.set idx v))
    ∧ (idx < inner.length → elemValid tenv t v = false → (tenv t).call v = Option.some w →
        _TypedList.setitem tenv (ClassRef.cls t) inner idx v
          = Except.ok (inner.set idx w))
    ∧ (v.truthy = false →
        _TypedList.insert tenv (ClassRef.cls t) inner idx v = Except.ok inner) := by
  refine ⟨?_, ?_, insert_skip tenv _ inner idx v⟩
  · intro hidx hval
    simp [_TypedList.setitem, _TypedList._is_valid, hval, hidx]
  · intro hidx hval hcall
    simp [_TypedList.setitem, _TypedList._is_valid, hval, _TypedList._fix_value,
      ClassRef.callRef, hcall, hidx]

/-- Witness for C10: assigning falsy `0` at position 0 of an `int` sequence
stores it (the sequence changes), assigning the falsy empty string into the
coercing class-`2` sequence stores the constructed `7`, while `insert` of
`0` at the same position is a no-op. -/
theorem C10_setitem_witness :
    _TypedList.setitem tenv0 (ClassRef.cls 1) [PyVal.int 1, PyVal.int 2] 0 (PyVal.int 0)
      = Except.ok [PyVal.int 0, PyVal.int 2]
    ∧ _TypedList.setitem tenv0 (ClassRef.cls 2) [PyVal.int 1] 0 (PyVal.str "")
      = Except.ok [PyVal.int 7]
    ∧ _TypedList.insert tenv0 (ClassRef.cls 1) [PyVal.int 1, PyVal.int 2] 0 (PyVal.int 0)
      = Except.ok [PyVal.int 1, PyVal.int 2] := by
  refine ⟨?_, ?_, ?_⟩
  · exact (C10_setitem tenv0 1 [PyVal.int 1, PyVal.int 2] 0 (PyVal.int 0) PyVal.none).1
      (by decide) rfl
  · exact (C10_setitem tenv0 2 [PyVal.int 1] 0 (PyVal.str "") (PyVal.int 7)).2.1
      (by decide) rfl rfl
  · exact (C10_setitem tenv0 1 [PyVal.int 1, PyVal.int 2] 0 (PyVal.int 0) PyVal.none).2.2 rfl

theorem lookup_store_self (e : Entity) (f : TypedField) (v : PyVal) :
    (Entity.store e f v).lookup f.fid = Option.some v := by
  rw [Entity.store, Entity.lookup]
  have hself : (f.fid == f.fid) = true := by simp
  induction e.fields with
  | nil =>
    show Option.map _ (List.find? (fun q => q.1.fid == f.fid) [(f, v)]) = _
    rw [List.find?, hself]
    rfl
  | cons p rest ih =>
    rw [updateAssoc]
    by_cases hp : (p.1.fid == f.fid) = true
    · rw [if_pos hp]
      show Option.map _ (List.find? (fun q => q.1.fid == f.fid) ((f, v) :: rest)) = _
      rw [List.find?, hself]
      rfl
    · rw [if_neg hp]
      rw [Bool.not_eq_true] at hp
      show Option.map _ (List.find? (fun q => q.1.fid == f.fid) (p :: updateAssoc f v rest)) = _
      rw [List.find?, hp]
      exact ih

/-- Is the value an instance of `_TypedList` (a typed sequence)? -/
def isTypedSeq : PyVal → Bool
  | PyVal.typedList _ _ => true
  | _ => false

/-- Counterexample to C4 as stated: the value lazily initialized and stored
for an unset multiple field is `instance._fields.setdefault(self, [])` — a
plain `list`, not a typed sequence — even for the fixture field whose
declared type makes its `listclass` a `_TypedList`. -/
theorem C4_get_counterexample :
    TypedField.get fMInt ⟨[]⟩ = (PyVal.list [], ⟨[(fMInt, PyVal.list [])]⟩)
    ∧ isTypedSeq (PyVal.list []) = false
    ∧ fMInt.multiple = true
    ∧ fMInt.listclass_type = Option.some (ClassRef.cls 1) :=
  ⟨rfl, rfl, rfl, rfl⟩

/-- C4 (amended): for a multiple-valued field with no stored value, the
first get lazily initializes and stores an empty plain `list` (not a typed
sequence) and returns it, and a subsequent get returns that same stored
object, leaving the storage unchanged; for a single-valued field with no
stored value, get returns `None`; otherwise get returns the stored value. -/
theorem C4_get (f : TypedField) (e : Entity) (v : PyVal) :
    (e.lookup f.fid = Option.none → f.multiple = true →
        TypedField.get f e = (PyVal.list [], Entity.store e f (PyVal.list []))
        ∧ (Entity.store e f (PyVal.list [])).lookup f.fid = Option.some (PyVal.list [])
        ∧ TypedField.get f (Entity.store e f (PyVal.list []))
            = (PyVal.list [], Entity.store e f (PyVal.list [])))
    ∧ (e.lookup f.fid = Option.none → f.multiple = false →
        TypedField.get f e = (PyVal.none, e))
    ∧ (e.lookup f.fid = Option.some v → TypedField.get f e = (v, e)) := by
  refine ⟨?_, ?_, ?_⟩
  · intro hl hm
    refine ⟨?_, lookup_store_self e f (PyVal.list []), ?_⟩
    · rw [TypedField.get, hl, hm]
      rfl
    · rw [TypedField.get, lookup_store_self e f (PyVal.list [])]
  · intro hl hm
    rw [TypedField.get, hl, hm]
    rfl
  · intro hl
    rw [TypedField.get, hl]

/-- Witness for C4 (amended): the fixture multiple field on an empty entity
stores and returns the plain empty list, the second get is stable, the
single-valued field yields `None`, and a stored value is returned as is. -/
theorem C4_get_witness :
    TypedField.get fMInt ⟨[]⟩ = (PyVal.list [], Entity.store ⟨[]⟩ fMInt (PyVal.list []))
    ∧ TypedField.get fMInt (Entity.store ⟨[]⟩ fMInt (PyVal.list []))
        = (PyVal.list [], Entity.store ⟨[]⟩ fMInt (PyVal.list []))
    ∧ TypedField.get fInt ⟨[]⟩ = (PyVal.none, ⟨[]⟩)
    ∧ TypedField.get fInt ⟨[(fInt, PyVal.int 4)]⟩ = (PyVal.int 4, ⟨[(fInt, PyVal.int 4)]⟩) := by
  refine ⟨?_, ?_, ?_, ?_⟩
  · exact ((C4_get fMInt ⟨[]⟩ PyVal.none).1 rfl rfl).1
  · exact ((C4_get fMInt ⟨[]⟩ PyVal.none).1 rfl rfl).2.2
  · exact (C4_get fInt ⟨[]⟩ PyVal.none).2.1 rfl rfl
  · exact (C4_get fInt ⟨[(fInt, PyVal.int 4)]⟩ (PyVal.int 4)).2.2 rfl

def isPresetEvent : HookEvent → Bool
  | HookEvent.preset _ _ => true
  | HookEvent.postset _ _ => false

def isPostsetEvent : HookEvent → Bool
  | HookEvent.preset _ _ => false
  | HookEvent.postset _ _ => true

theorem mkList_typed_empty (tenv : TypeEnv) (f : TypedField) (t : Nat)
    (hty : f.listclass_type = Option.some (ClassRef.cls t)) :
    TypedField.mkList tenv f Option.none
      = Except.ok (PyVal.typedList (ClassRef.cls t) []) := by
  rw [TypedField.mkList, hty]
  rfl

theorem mkList_typed_items (tenv : TypeEnv) (f : TypedField) (t : Nat) (cs : List PyVal)
    (hty : f.listclass_type = Option.some (ClassRef.cls t))
    (h : ∀ c ∈ cs, c.truthy = true → elemValid tenv t c = true) :
    TypedField.mkList tenv f (Option.some (PyVal.list cs))
      = Except.ok (PyVal.typedList (ClassRef.cls t) (cs.filter PyVal.truthy)) := by
  rw [TypedField.mkList, hty]
  dsimp only
  rw [initArgs_one_list tenv t cs h]
  rfl

theorem mkList_plain (tenv : TypeEnv) (f : TypedField) (arg : Option PyVal)
    (hty : f.listclass_type = Option.none) :
    TypedField.mkList tenv f arg
      = Except.ok (PyVal.list (match arg with
          | Option.some a => a.seqElems
          | Option.none => [])) := by
  rw [TypedField.mkList.eq_def, hty]

theorem multipleStored_none (tenv : TypeEnv) (ienv : ImportEnv) (f : TypedField) :
    TypedField.multipleStored tenv ienv f PyVal.none
      = TypedField.mkList tenv f Option.none := rfl

theorem multipleStored_scalar (tenv : TypeEnv) (ienv : ImportEnv) (f : TypedField)
    (v : PyVal) (hv : v.isNone = false) (hseq : is_sequence v = false) :
    TypedField.multipleStored tenv ienv f v =
      (match TypedField._clean tenv ienv f v with
       | Except.error e => Except.error e
       | Except.ok c => TypedField.mkList tenv f (Option.some (PyVal.list [c]))) := by
  cases v
  case none => simp [PyVal.isNone] at hv
  case list => simp [is_sequence] at hseq
  case typedList => simp [is_sequence] at hseq
  all_goals rfl

theorem multipleStored_seq (tenv : TypeEnv) (ienv : ImportEnv) (f : TypedField)
    (v : PyVal) (hseq : is_sequence v = true) :
    TypedField.multipleStored tenv ienv f v =
      (match (v.seqElems.filter (fun x => x.isNone = false)).mapM
          (TypedField._clean tenv ienv f) with
       | Except.error e => Except.error e
       | Except.ok cs => TypedField.mkList tenv f (Option.some (PyVal.list cs))) := by
  cases v
  case list => rfl
  case typedList => rfl
  all_goals simp [is_sequence] at hseq

/-- Counterexample to C3 as stated: the `int`-typed multiple fixture field,
assigned the scalar `0` (cleaned to `0` itself), stores an empty typed
sequence, not the one-element `[clean(0)]`: the typed sequence's `insert`
silently drops falsy cleaned values. -/
theorem C3_set_multiple_counterexample :
    TypedField._clean tenv0 [] fMInt (PyVal.int 0) = Except.ok (PyVal.int 0)
    ∧ TypedField.set tenv0 [] fMInt ⟨[]⟩ (PyVal.int 0)
        = Except.ok (⟨[(fMInt, PyVal.typedList (ClassRef.cls 1) [])]⟩, [])
    ∧ ([] : List PyVal) ≠ [PyVal.int 0] :=
  ⟨rfl, rfl, by simp⟩

/-- C3 (amended): setting a multiple-valued field to null stores a new
empty sequence — a typed sequence when the field declares a (truthy) type,
a plain list otherwise; setting it to a non-sequence value stores a
one-element sequence holding the cleaned value, except that a typed
sequence silently drops a falsy cleaned value; setting it to a sequence
stores the cleaned non-null elements in order, with null elements dropped
before cleaning and, for typed sequences, falsy cleaned elements dropped as
well; and the preset and postset hooks each run exactly once per
assignment, around the whole stored value. -/
theorem C3_set_multiple (tenv : TypeEnv) (ienv : ImportEnv) (f : TypedField)
    (e : Entity) (v c w : PyVal) (t : Nat) (cs : List PyVal) :
    (f.multiple = true → f.listclass_type = Option.some (ClassRef.cls t) →
        TypedField.set tenv ienv f e PyVal.none
          = Except.ok (Entity.store e f (PyVal.typedList (ClassRef.cls t) []),
              f.hookEvents (PyVal.typedList (ClassRef.cls t) [])))
    ∧ (f.multiple = true → f.listclass_type = Option.none →
        TypedField.set tenv ienv f e PyVal.none
          = Except.ok (Entity.store e f (PyVal.list []), f.hookEvents (PyVal.list [])))
    ∧ (f.multiple = true → f.listclass_type = Option.some (ClassRef.cls t) →
       v.isNone = false → is_sequence v = false →
       TypedField._clean tenv ienv f v = Except.ok c →
       (c.truthy = true → elemValid tenv t c = true) →
        TypedField.set tenv ienv f e v
          = Except.ok (Entity.store e f
                (PyVal.typedList (ClassRef.cls t) (List.filter PyVal.truthy [c])),
              f.hookEvents (PyVal.typedList (ClassRef.cls t) (List.filter PyVal.truthy [c]))))
    ∧ (f.multiple = true → f.listclass_type = Option.none →
       v.isNone = false → is_sequence v = false →
       TypedField._clean tenv ienv f v = Except.ok c →
        TypedField.set tenv ienv f e v
          = Except.ok (Entity.store e f (PyVal.list [c]), f.hookEvents (PyVal.list [c])))
    ∧ (f.multiple = true → f.listclass_type = Option.some (ClassRef.cls t) →
       is_sequence v = true →
       (v.seqElems.filter (fun x => x.isNone = false)).mapM (TypedField._clean tenv ienv f)
         = Except.ok cs →
       (∀ x ∈ cs, x.truthy = true → elemValid tenv t x = true) →
        TypedField.set tenv ienv f e v
          = Except.ok (Entity.store e f
                (PyVal.typedList (ClassRef.cls t) (cs.filter PyVal.truthy)),
              f.hookEvents (PyVal.typedList (ClassRef.cls t) (cs.filter PyVal.truthy))))
    ∧ (f.multiple = true → f.listclass_type = Option.none →
       is_sequence v = true →
       (v.seqElems.filter (fun x => x.isNone = false)).mapM (TypedField._clean tenv ienv f)
         = Except.ok cs →
        TypedField.set tenv ienv f e v
          = Except.ok (Entity.store e f (PyVal.list cs), f.hookEvents (PyVal.list cs)))
    ∧ ((f.hookEvents w).countP isPresetEvent = (if f.preset_hook.isSome then 1 else 0)
        ∧ (f.hookEvents w).countP isPostsetEvent = (if f.postset_hook.isSome then 1 else 0)) := by
  refine ⟨?_, ?_, ?_, ?_, ?_, ?_, ?_⟩
  · intro hm hty
    have hstored : (if f.multiple then TypedField.multipleStored tenv ienv f PyVal.none
        else TypedField._clean tenv ienv f PyVal.none)
        = Except.ok (PyVal.typedList (ClassRef.cls t) []) := by
      rw [hm, if_pos rfl, multipleStored_none, mkList_typed_empty tenv f t hty]
    rw [TypedField.set, hstored]
  · intro hm hty
    have hstored : (if f.multiple then TypedField.multipleStored tenv ienv f PyVal.none
        else TypedField._clean tenv ienv f PyVal.none) = Except.ok (PyVal.list []) := by
      rw [hm, if_pos rfl, multipleStored_none, mkList_plain tenv f Option.none hty]
    rw [TypedField.set, hstored]
  · intro hm hty hv hseq hc hvalid
    have hstored : (if f.multiple then TypedField.multipleStored tenv ienv f v
        else TypedField._clean tenv ienv f v)
        = Except.ok (PyVal.typedList (ClassRef.cls t) (List.filter PyVal.truthy [c])) := by
      rw [hm, if_pos rfl, multipleStored_scalar tenv ienv f v hv hseq, hc]
      exact mkList_typed_items tenv f t [c] hty (fun x hx hxt => by
        rw [List.mem_singleton] at hx
        subst hx
        exact hvalid hxt)
    rw [TypedField.set, hstored]
  · intro hm hty hv hseq hc
    have hstored : (if f.multiple then TypedField.multipleStored tenv ienv f v
        else TypedField._clean tenv ienv f v) = Except.ok (PyVal.list [c]) := by
      rw [hm, if_pos rfl, multipleStored_scalar tenv ienv f v hv hseq, hc]
      exact mkList_plain tenv f (Option.some (PyVal.list [c])) hty
    rw [TypedField.set, hstored]
  · intro hm hty hseq hcs hvalid
    have hstored : (if f.multiple then TypedField.multipleStored tenv ienv f v
        else TypedField._clean tenv ienv f v)
        = Except.ok (PyVal.typedList (ClassRef.cls t) (cs.filter PyVal.truthy)) := by
      rw [hm, if_pos rfl, multipleStored_seq tenv ienv f v hseq, hcs]
      exact mkList_typed_items tenv f t cs hty hvalid
    rw [TypedField.set, hstored]
  · intro hm hty hseq hcs
    have hstored : (if f.multiple then TypedField.multipleStored tenv ienv f v
        else TypedField._clean tenv ienv f v) = Except.ok (PyVal.list cs) := by
      rw [hm, if_pos rfl, multipleStored_seq tenv ienv f v hseq, hcs]
      exact mkList_plain tenv f (Option.some (PyVal.list cs)) hty
    rw [TypedField.set, hstored]
  · constructor <;>
      (cases hpre : f.preset_hook <;> cases hpost : f.postset_hook <;>
        simp [TypedField.hookEvents, hpre, hpost, isPresetEvent, isPostsetEvent,
          List.countP_append, List.countP_cons, List.countP_nil])

/-- Witness for C3 (amended): the `int`-typed multiple field set to null
stores an empty typed sequence; set to a null-containing sequence it stores
the cleaned non-null elements; and on the hooked field each hook event
occurs exactly once. -/
theorem C3_set_multiple_witness :
    TypedField.set tenv0 [] fMInt ⟨[]⟩ PyVal.none
      = Except.ok (⟨[(fMInt, PyVal.typedList (ClassRef.cls 1) [])]⟩, [])
    ∧ TypedField.set tenv0 [] fMInt ⟨[]⟩
        (PyVal.list [PyVal.none, PyVal.int 3, PyVal.none, PyVal.int 4])
      = Except.ok (⟨[(fMInt, PyVal.typedList (ClassRef.cls 1) [PyVal.int 3, PyVal.int 4])]⟩, [])
    ∧ (fHooked.hookEvents (PyVal.typedList (ClassRef.cls 1) [])).countP isPresetEvent = 1
    ∧ (fHooked.hookEvents (PyVal.typedList (ClassRef.cls 1) [])).countP isPostsetEvent = 1 := by
  refine ⟨?_, ?_, ?_, ?_⟩
  · exact (C3_set_multiple tenv0 [] fMInt ⟨[]⟩ PyVal.none PyVal.none PyVal.none 1 []).1 rfl rfl
  · exact (C3_set_multiple tenv0 [] fMInt ⟨[]⟩
      (PyVal.list [PyVal.none, PyVal.int 3, PyVal.none, PyVal.int 4]) PyVal.none PyVal.none 1
      [PyVal.int 3, PyVal.int 4]).2.2.2.2.1 rfl rfl rfl rfl
      (by
        intro x hx hxt
        simp only [List.mem_cons, List.mem_singleton, List.not_mem_nil, or_false] at hx
        rcases hx with h | h <;> subst h <;> rfl)
  · exact (C3_set_multiple tenv0 [] fHooked ⟨[]⟩ PyVal.none PyVal.none
      (PyVal.typedList (ClassRef.cls 1) []) 1 []).2.2.2.2.2.2.1
  · exact (C3_set_multiple tenv0 [] fHooked ⟨[]⟩ PyVal.none PyVal.none
      (PyVal.typedList (ClassRef.cls 1) []) 1 []).2.2.2.2.2.2.2

theorem clean_untyped (tenv : TypeEnv) (ienv : ImportEnv) (f : TypedField) (v : PyVal)
    (h : f._type = ClassRef.pynone) :
    TypedField._clean tenv ienv f v = Except.ok v := by
  cases v <;> simp [TypedField._clean, TypedField.type_res, h, _resolve_class]

theorem exclusive_of (e : Entity)
    (h : e.hasTruthyKind FieldClass.id = false
      ∨ e.hasTruthyKind FieldClass.idref = false) :
    e.exclusive = true := by
  rw [Entity.exclusive]
  rcases h with h | h <;> rw [h] <;> simp

theorem exclusive_elim (e : Entity) (h : e.exclusive = true) :
    e.hasTruthyKind FieldClass.id = false
      ∨ e.hasTruthyKind FieldClass.idref = false := by
  rw [Entity.exclusive] at h
  cases hid : e.hasTruthyKind FieldClass.id
  · left; rfl
  · right
    cases href : e.hasTruthyKind FieldClass.idref
    · rfl
    · rw [hid, href] at h
      simp at h

theorem hasTruthyKind_store_false (e : Entity) (f : TypedField) (v : PyVal)
    (c : FieldClass) (he : e.hasTruthyKind c = false)
    (hf : (f.cls == c && v.truthy) = false) :
    (Entity.store e f v).hasTruthyKind c = false := by
  cases h : (Entity.store e f v).hasTruthyKind c
  · rfl
  · exfalso
    rcases hasTruthyKind_store e f v c h with h1 | h1
    · exact Bool.false_ne_true (he.symm.trans h1)
    · exact Bool.false_ne_true (hf.symm.trans h1)

theorem stored_falsy_scalar (tenv : TypeEnv) (ienv : ImportEnv) (f : TypedField)
    (v stored : PyVal) (t : Nat)
    (hv : v.truthy = false) (hvn : v.isNone = false) (hseq : is_sequence v = false)
    (hty : f.listclass_type = Option.some (ClassRef.cls t))
    (hclean : ∀ w c, w.truthy = false → TypedField._clean tenv ienv f w = Except.ok c →
       c.truthy = false)
    (h : TypedField.multipleStored tenv ienv f v = Except.ok stored) :
    stored.truthy = false := by
  rw [multipleStored_scalar tenv ienv f v hvn hseq] at h
  cases hc : TypedField._clean tenv ienv f v with
  | error err =>
    rw [hc] at h
    exact absurd h (by simp)
  | ok c =>
    rw [hc] at h
    dsimp only at h
    have hcf : c.truthy = false := hclean v c hv hc
    rw [mkList_typed_items tenv f t [c] hty (fun x hx hxt => by
      rw [List.mem_singleton] at hx
      subst hx
      rw [hcf] at hxt
      cases hxt)] at h
    injection h with h2
    rw [← h2, show List.filter PyVal.truthy [c] = [] from by simp [List.filter, hcf]]
    rfl

theorem stored_falsy_seq (tenv : TypeEnv) (ienv : ImportEnv) (f : TypedField)
    (v stored : PyVal) (t : Nat)
    (hv : v.truthy = false) (hseq : is_sequence v = true)
    (hty : f.listclass_type = Option.some (ClassRef.cls t))
    (h : TypedField.multipleStored tenv ienv f v = Except.ok stored) :
    stored.truthy = false := by
  have helems : v.seqElems = [] := by
    cases v with
    | list xs =>
      simp only [PyVal.truthy, Bool.not_eq_false'] at hv
      simp only [PyVal.seqElems]
      exact List.isEmpty_iff.mp hv
    | typedList ty xs =>
      simp only [PyVal.truthy, Bool.not_eq_false'] at hv
      simp only [PyVal.seqElems]
      exact List.isEmpty_iff.mp hv
    | none => simp [is_sequence] at hseq
    | str s => simp [is_sequence] at hseq
    | int n => simp [is_sequence] at hseq
    | bool b => simp [is_sequence] at hseq
    | obj o p => simp [is_sequence] at hseq
  rw [multipleStored_seq tenv ienv f v hseq, helems] at h
  rw [show ((List.filter (fun x => x.isNone = false) ([] : List PyVal)).mapM
      (TypedField._clean tenv ienv f)) = Except.ok [] from rfl] at h
  dsimp only at h
  rw [mkList_typed_items tenv f t [] hty (by intro c hc hct; simp at hc)] at h
  injection h with h2
  rw [← h2]
  rfl

theorem stored_falsy (tenv : TypeEnv) (ienv : ImportEnv) (f : TypedField)
    (v stored : PyVal)
    (hv : v.truthy = false)
    (hclean : ∀ w c, w.truthy = false → TypedField._clean tenv ienv f w = Except.ok c →
       c.truthy = false)
    (hmul : f.multiple = true → ∃ t, f.listclass_type = Option.some (ClassRef.cls t))
    (h : (if f.multiple then TypedField.multipleStored tenv ienv f v
          else TypedField._clean tenv ienv f v) = Except.ok stored) :
    stored.truthy = false := by
  cases hm : f.multiple with
  | false =>
    rw [hm, if_neg (by simp)] at h
    exact hclean v stored hv h
  | true =>
    obtain ⟨t, hty⟩ := hmul hm
    rw [hm, if_pos rfl] at h
    cases hvn : v.isNone with
    | true =>
      have hvn2 : v = PyVal.none := by
        cases v
        case none => rfl
        all_goals simp [PyVal.isNone] at hvn
      subst hvn2
      rw [multipleStored_none, mkList_typed_empty tenv f t hty] at h
      injection h with h2
      rw [← h2]
      rfl
    | false =>
      cases hseq : is_sequence v with
      | false => exact stored_falsy_scalar tenv ienv f v stored t hv hvn hseq hty hclean h
      | true => exact stored_falsy_seq tenv ienv f v stored t hv hseq hty h

/-- Counterexample to C1 as stated: with the castable wrapper class as its
type, setting the Id-kind field to the falsy `0` stores the truthy
constructed instance but — the raw value being falsy — skips the Idref
cross-removal; starting from an entity whose Idref field was normally set
to "X", the entity ends up holding a truthy Id-kind and a truthy Idref-kind
value simultaneously. -/
theorem C1_id_idref_counterexample :
    IdrefField.set tenv0 [] fIdrefU ⟨[]⟩ (PyVal.str "X")
      = Except.ok (⟨[(fIdrefU, PyVal.str "X")]⟩, [])
    ∧ IdField.set tenv0 [] fIdCast ⟨[(fIdrefU, PyVal.str "X")]⟩ (PyVal.int 0)
      = Except.ok (⟨[(fIdrefU, PyVal.str "X"), (fIdCast, PyVal.obj 0 (PyVal.int 0))]⟩, [])
    ∧ Entity.exclusive ⟨[(fIdrefU, PyVal.str "X"), (fIdCast, PyVal.obj 0 (PyVal.int 0))]⟩
        = false :=
  ⟨rfl, rfl, rfl⟩

/-- C1 (amended): setting an Id-kind field to a truthy value performs the
normal set and then removes all stored Idref-kind entries (symmetrically
for Idref-kind fields); setting either kind to a falsy/null value performs
the normal set only, with no cross-removal; and the exclusion invariant is
preserved by every attribute assignment provided the field's clean step
maps falsy inputs to falsy results and any multiple-valued field being
assigned has a declared concrete element type — without these provisos the
normal set can store a truthy value for a falsy raw input and skip the
cross-removal, breaking the invariant (see the counterexample). -/
theorem C1_id_idref (tenv : TypeEnv) (ienv : ImportEnv) (f : TypedField)
    (e e2 : Entity) (v : PyVal) (evs : List HookEvent) :
    (v.truthy = true →
        IdField.set tenv ienv f e v
          = (match TypedField.set tenv ienv f e v with
             | Except.error err => Except.error err
             | Except.ok r => Except.ok (unsetKinds r.1 [FieldClass.idref], r.2)))
    ∧ (v.truthy = false → IdField.set tenv ienv f e v = TypedField.set tenv ienv f e v)
    ∧ (v.truthy = true →
        IdrefField.set tenv ienv f e v
          = (match TypedField.set tenv ienv f e v with
             | Except.error err => Except.error err
             | Except.ok r => Except.ok (unsetKinds r.1 [FieldClass.id], r.2)))
    ∧ (v.truthy = false → IdrefField.set tenv ienv f e v = TypedField.set tenv ienv f e v)
    ∧ (e.exclusive = true →
       (∀ w c, w.truthy = false → TypedField._clean tenv ienv f w = Except.ok c →
          c.truthy = false) →
       (f.multiple = true → ∃ t, f.listclass_type = Option.some (ClassRef.cls t)) →
       Entity.setattr tenv ienv f e v = Except.ok (e2, evs) →
       e2.exclusive = true) := by
  refine ⟨?_, ?_, ?_, ?_, ?_⟩
  · intro hv
    cases hres : TypedField.set tenv ienv f e v <;> simp [IdField.set, hres, hv, unset]
  · intro hv
    cases hres : TypedField.set tenv ienv f e v <;> simp [IdField.set, hres, hv]
  · intro hv
    cases hres : TypedField.set tenv ienv f e v <;> simp [IdrefField.set, hres, hv, unset]
  · intro hv
    cases hres : TypedField.set tenv ienv f e v <;> simp [IdrefField.set, hres, hv]
  · intro hexcl hclean hmul hset
    cases hcls : f.cls with
    | typed =>
      rw [Entity.setattr, hcls] at hset
      rw [TypedField.set] at hset
      cases hst : (if f.multiple then TypedField.multipleStored tenv ienv f v
          else TypedField._clean tenv ienv f v) with
      | error err =>
        rw [hst] at hset
        exact absurd hset (by simp)
      | ok stored =>
        rw [hst] at hset
        dsimp only at hset
        rw [Except.ok.injEq, Prod.mk.injEq] at hset
        obtain ⟨he2, -⟩ := hset
        subst he2
        rcases exclusive_elim e hexcl with h | h
        · exact exclusive_of _ (Or.inl (hasTruthyKind_store_false e f stored _ h
            (by rw [hcls]; rfl)))
        · exact exclusive_of _ (Or.inr (hasTruthyKind_store_false e f stored _ h
            (by rw [hcls]; rfl)))
    | id =>
      rw [Entity.setattr, hcls] at hset
      rw [IdField.set] at hset
      cases hres : TypedField.set tenv ienv f e v with
      | error err =>
        rw [hres] at hset
        exact absurd hset (by simp)
      | ok r =>
        rw [hres] at hset
        dsimp only at hset
        cases hv : v.truthy with
        | true =>
          rw [hv, if_pos rfl] at hset
          rw [show unset r.1 [FieldClass.idref]
            = Except.ok (unsetKinds r.1 [FieldClass.idref]) from rfl] at hset
          dsimp only at hset
          rw [Except.ok.injEq, Prod.mk.injEq] at hset
          obtain ⟨he2, -⟩ := hset
          subst he2
          exact exclusive_of _ (Or.inr (hasTruthyKind_unset_self r.1 FieldClass.idref))
        | false =>
          rw [hv, if_neg (by simp)] at hset
          rw [TypedField.set] at hres
          cases hst : (if f.multiple then TypedField.multipleStored tenv ienv f v
              else TypedField._clean tenv ienv f v) with
          | error err =>
            rw [hst] at hres
            exact absurd hres (by simp)
          | ok stored =>
            rw [hst] at hres
            dsimp only at hres
            rw [Except.ok.injEq] at hres
            have hstf : stored.truthy = false :=
              stored_falsy tenv ienv f v stored hv hclean hmul hst
            rw [Except.ok.injEq] at hset
            rw [hset] at hres
            rw [Prod.mk.injEq] at hres
            obtain ⟨he2, -⟩ := hres
            subst he2
            rcases exclusive_elim e hexcl with h | h
            · exact exclusive_of _ (Or.inl (hasTruthyKind_store_false e f stored _ h
                (by rw [hstf]; simp)))
            · exact exclusive_of _ (Or.inr (hasTruthyKind_store_false e f stored _ h
                (by rw [hstf]; simp)))
    | idref =>
      rw [Entity.setattr, hcls] at hset
      rw [IdrefField.set] at hset
      cases hres : TypedField.set tenv ienv f e v with
      | error err =>
        rw [hres] at hset
        exact absurd hset (by simp)
      | ok r =>
        rw [hres] at hset
        dsimp only at hset
        cases hv : v.truthy with
        | true =>
          rw [hv, if_pos rfl] at hset
          rw [show unset r.1 [FieldClass.id]
            = Except.ok (unsetKinds r.1 [FieldClass.id]) from rfl] at hset
          dsimp only at hset
          rw [Except.ok.injEq, Prod.mk.injEq] at hset
          obtain ⟨he2, -⟩ := hset
          subst he2
          exact exclusive_of _ (Or.inl (hasTruthyKind_unset_self r.1 FieldClass.id))
        | false =>
          rw [hv, if_neg (by simp)] at hset
          rw [TypedField.set] at hres
          cases hst : (if f.multiple then TypedField.multipleStored tenv ienv f v
              else TypedField._clean tenv ienv f v) with
          | error err =>
            rw [hst] at hres
            exact absurd hres (by simp)
          | ok stored =>
            rw [hst] at hres
            dsimp only at hres
            rw [Except.ok.injEq] at hres
            have hstf : stored.truthy = false :=
              stored_falsy tenv ienv f v stored hv hclean hmul hst
            rw [Except.ok.injEq] at hset
            rw [hset] at hres
            rw [Prod.mk.injEq] at hres
            obtain ⟨he2, -⟩ := hres
            subst he2
            rcases exclusive_elim e hexcl with h | h
            · exact exclusive_of _ (Or.inl (hasTruthyKind_store_false e f stored _ h
                (by rw [hstf]; simp)))
            · exact exclusive_of _ (Or.inr (hasTruthyKind_store_false e f stored _ h
                (by rw [hstf]; simp)))

/-- Witness for C1 (amended): setting the untyped Id field to "A" removes
the stored Idref entry; setting it to `None` on an entity with a truthy
Idref value preserves the exclusion invariant. -/
theorem C1_id_idref_witness :
    IdField.set tenv0 [] fIdU ⟨[(fIdrefU, PyVal.str "X")]⟩ (PyVal.str "A")
      = Except.ok (⟨[(fIdU, PyVal.str "A")]⟩, [])
    ∧ Entity.setattr tenv0 [] fIdU ⟨[(fIdrefU, PyVal.str "X")]⟩ PyVal.none
      = Except.ok (⟨[(fIdrefU, PyVal.str "X"), (fIdU, PyVal.none)]⟩, [])
    ∧ Entity.exclusive ⟨[(fIdrefU, PyVal.str "X"), (fIdU, PyVal.none)]⟩ = true := by
  refine ⟨?_, rfl, ?_⟩
  · exact ((C1_id_idref tenv0 [] fIdU ⟨[(fIdrefU, PyVal.str "X")]⟩
      ⟨[(fIdU, PyVal.str "A")]⟩ (PyVal.str "A") []).1 rfl).trans rfl
  · exact (C1_id_idref tenv0 [] fIdU ⟨[(fIdrefU, PyVal.str "X")]⟩
      ⟨[(fIdrefU, PyVal.str "X"), (fIdU, PyVal.none)]⟩ PyVal.none []).2.2.2.2 rfl
      (fun w c hw hc => by
        rw [clean_untyped tenv0 [] fIdU w rfl] at hc
        injection hc with h2
        rw [← h2]
        exact hw)
      (fun hm => absurd hm (by simp [fIdU, TypedField.init]))
      rfl
